import Mathlib

/-!
Verification of the APIHub-Gateway backend core against its specification.

The Python sources under `backend/app` are shallowly embedded: each service
method becomes a pure Lean function that threads the mutated entities
explicitly.  Python `float` fields are modelled as exact rationals (`Rat`),
timestamps as rationals (seconds), and SQLAlchemy rows as Lean structures.
A database session holding a single already-fetched row is modelled by
passing the row itself; stores of several rows are lists.
-/

namespace APIHub

/-- User row (`backend/app/models/user.py`).  Only the fields used by the
token/balance and quota logic are embedded. -/
structure User where
  id : Int
  is_active : Bool
  is_admin : Bool
  quota_limit : Rat
  quota_used : Rat
  token_balance : Rat
  total_recharged : Rat
  total_consumed : Rat
  discount_rate : Rat
deriving Repr, DecidableEq

/-- Token transaction row (`backend/app/models/user.py`, `TokenTransaction`).
The free-text `description` column is not modelled. -/
structure TokenTransaction where
  user_id : Int
  amount : Rat
  balance_before : Rat
  balance_after : Rat
  transaction_type : String
  order_no : Option String
  api_key_id : Option Int
deriving Repr, DecidableEq

/-- Result of a `TokenService` mutating call: the `(success, new_balance,
transaction)` triple returned by the Python method, together with the user
row as left in the session. -/
structure TokenOpResult where
  success : Bool
  balance : Rat
  txn : Option TokenTransaction
  user : User
deriving Repr, DecidableEq

/-- `TokenService.recharge` (`token_service.py`), for a user that exists in
the store. -/
def recharge (user : User) (amount : Rat) (order_no : Option String) :
    TokenOpResult :=
  if amount ≤ 0 then ⟨false, 0, none, user⟩
  else
    let balance_before := user.token_balance
    let user1 := { user with
      token_balance := user.token_balance + amount
      total_recharged := user.total_recharged + amount }
    ⟨true, user1.token_balance,
      some ⟨user.id, amount, balance_before, user1.token_balance, "recharge",
        order_no, none⟩,
      user1⟩

/-- `TokenService.consume` (`token_service.py`), for a user that exists in
the store. -/
def consume (user : User) (amount : Rat) (api_key_id : Option Int)
    (apply_discount : Bool) : TokenOpResult :=
  if amount ≤ 0 then ⟨false, 0, none, user⟩
  else
    let actual_amount :=
      if apply_discount = true ∧ user.discount_rate < 1 then
        amount * user.discount_rate
      else amount
    if user.token_balance < actual_amount then
      ⟨false, user.token_balance, none, user⟩
    else
      let balance_before := user.token_balance
      let user1 := { user with
        token_balance := user.token_balance - actual_amount
        total_consumed := user.total_consumed + actual_amount }
      ⟨true, user1.token_balance,
        some ⟨user.id, -actual_amount, balance_before, user1.token_balance,
          "consume", none, api_key_id⟩,
        user1⟩

/-- `TokenService.refund` (`token_service.py`), for a user that exists in
the store. -/
def refund (user : User) (amount : Rat) (order_no : Option String) :
    TokenOpResult :=
  if amount ≤ 0 then ⟨false, 0, none, user⟩
  else
    let balance_before := user.token_balance
    let user1 := { user with token_balance := user.token_balance + amount }
    ⟨true, user1.token_balance,
      some ⟨user.id, amount, balance_before, user1.token_balance, "refund",
        order_no, none⟩,
      user1⟩

/-- `TokenService.adjust` (`token_service.py`), for a user that exists in
the store. -/
def adjust (user : User) (amount : Rat) : TokenOpResult :=
  let balance_before := user.token_balance
  let new_balance := balance_before + amount
  if new_balance < 0 then ⟨false, balance_before, none, user⟩
  else
    let user1 := { user with token_balance := new_balance }
    ⟨true, new_balance,
      some ⟨user.id, amount, balance_before, new_balance, "adjust", none,
        none⟩,
      user1⟩

/-- A sequence of `consume` calls against a single user, with
`apply_discount = true` (the default), returning the final user row and the
success flag of each call in order. -/
def consumeSeq (user : User) : List Rat → User × List Bool
  | [] => (user, [])
  | a :: rest =>
    let r := consume user a none true
    let p := consumeSeq r.user rest
    (p.1, r.success :: p.2)

/-- One balance-ledger operation, tagging which `TokenService` method is
called and with which arguments. -/
inductive LedgerOp where
  | rechargeOp (amount : Rat) (order_no : Option String)
  | consumeOp (amount : Rat) (api_key_id : Option Int) (apply_discount : Bool)
  | refundOp (amount : Rat) (order_no : Option String)
  | adjustOp (amount : Rat)
deriving Repr, DecidableEq

/-- Dispatch one ledger operation to the corresponding service method. -/
def applyOp (u : User) : LedgerOp → TokenOpResult
  | .rechargeOp a o => recharge u a o
  | .consumeOp a k d => consume u a k d
  | .refundOp a o => refund u a o
  | .adjustOp a => adjust u a

/-- Run a sequence of ledger operations, collecting the transactions that
were appended (in creation order). -/
def runOps (u : User) : List LedgerOp → User × List TokenTransaction
  | [] => (u, [])
  | op :: rest =>
    let r := applyOp u op
    let p := runOps r.user rest
    (p.1, (match r.txn with | some t => [t] | none => []) ++ p.2)

/-- A concrete user for evaluating the theorems: balance 10, discount 0.8. -/
def exUser : User :=
  ⟨1, true, false, 100, 0, 10, 0, 0, (4 : Rat)/5⟩

theorem consume_discount_rate (u : User) (a : Rat) (k : Option Int) (d : Bool) :
    (consume u a k d).user.discount_rate = u.discount_rate := by
  unfold consume
  dsimp only
  split_ifs <;> rfl

theorem consume_success_iff (u : User) (a : Rat) (k : Option Int)
    (hr : u.discount_rate ≤ 1) :
    ((consume u a k true).success = true ↔
      0 < a ∧ a * u.discount_rate ≤ u.token_balance) := by
  unfold consume
  dsimp only
  split_ifs with h1 h2 h3 h4
  · simp [not_lt.mpr h1]
  · simp [not_le.mpr h3]
  · simp [not_le.mp h1, not_lt.mp h3]
  · have hrate : u.discount_rate = 1 :=
      le_antisymm hr (not_lt.mp (fun hlt => h2 ⟨rfl, hlt⟩))
    simp [hrate, not_le.mpr h4]
  · have hrate : u.discount_rate = 1 :=
      le_antisymm hr (not_lt.mp (fun hlt => h2 ⟨rfl, hlt⟩))
    simp [hrate, not_le.mp h1, not_lt.mp h4]

theorem consume_success_state (u : User) (a : Rat) (k : Option Int)
    (hr : u.discount_rate ≤ 1) (h : (consume u a k true).success = true) :
    (consume u a k true).user.token_balance
        = u.token_balance - a * u.discount_rate ∧
    ∃ t, (consume u a k true).txn = some t ∧
      t.amount = -(a * u.discount_rate) ∧
      t.balance_before = u.token_balance ∧
      t.balance_after = u.token_balance - a * u.discount_rate := by
  unfold consume at h ⊢
  dsimp only at h ⊢
  split_ifs at h ⊢ <;>
    first
      | exact ⟨rfl, ⟨_, rfl, rfl, rfl, rfl⟩⟩
      | (rename_i hx _
         have hrate : u.discount_rate = 1 :=
           le_antisymm hr (not_lt.mp (fun hlt => hx ⟨rfl, hlt⟩))
         rw [hrate, mul_one]
         exact ⟨rfl, ⟨_, rfl, rfl, rfl, rfl⟩⟩)

theorem consume_fail_state (u : User) (a : Rat) (k : Option Int) (d : Bool)
    (h : (consume u a k d).success = false) :
    (consume u a k d).user = u ∧ (consume u a k d).txn = none := by
  unfold consume at h ⊢
  dsimp only at h ⊢
  split_ifs at h ⊢ <;> exact ⟨rfl, rfl⟩

theorem consumeSeq_discount (l : List Rat) :
    ∀ u : User, (consumeSeq u l).1.discount_rate = u.discount_rate := by
  induction l with
  | nil => intro u; rfl
  | cons a rest ih =>
    intro u
    simp only [consumeSeq]
    rw [ih, consume_discount_rate]

theorem consumeSeq_getD (l : List Rat) :
    ∀ u : User, u.discount_rate ≤ 1 → ∀ i : Nat, i < l.length →
      (((consumeSeq u l).2.getD i false = true) ↔
        0 < l.getD i 0 ∧
          (l.getD i 0) * u.discount_rate
            ≤ (consumeSeq u (l.take i)).1.token_balance) := by
  induction l with
  | nil => intro u hr i hi; simp at hi
  | cons a rest ih =>
    intro u hr i hi
    cases i with
    | zero =>
      simpa [consumeSeq] using consume_success_iff u a none hr
    | succ n =>
      have hr2 : (consume u a none true).user.discount_rate ≤ 1 := by
        rw [consume_discount_rate]; exact hr
      have h := ih (consume u a none true).user hr2 n (by simpa using hi)
      rw [consume_discount_rate] at h
      simpa [consumeSeq] using h

/-- C1: with `apply_discount = true` and a discount rate within the documented
`(0,1]` range, `TokenService.consume` succeeds exactly when the amount is
positive and the discounted amount `amount * discount_rate` fits the current
balance; on success it debits exactly the discounted amount and appends one
transaction whose `amount` field is its negation; on failure the user row is
unchanged and no transaction is appended; and in any sequence of `consume`
calls, each call succeeds iff its own discounted amount fits the balance at
that point. -/
theorem consume_discounted_debit_correct (user : User)
    (hr : user.discount_rate ≤ 1) :
    (∀ (a : Rat) (k : Option Int),
      ((consume user a k true).success = true ↔
        0 < a ∧ 0 ≤ user.token_balance - a * user.discount_rate)) ∧
    (∀ (a : Rat) (k : Option Int), (consume user a k true).success = true →
      (consume user a k true).user.token_balance
          = user.token_balance - a * user.discount_rate ∧
      ∃ t, (consume user a k true).txn = some t ∧
        t.amount = -(a * user.discount_rate)) ∧
    (∀ (a : Rat) (k : Option Int), (consume user a k true).success = false →
      (consume user a k true).user = user ∧
        (consume user a k true).txn = none) ∧
    (∀ (l : List Rat) (i : Nat), i < l.length →
      (((consumeSeq user l).2.getD i false = true) ↔
        0 < l.getD i 0 ∧
          (l.getD i 0) * user.discount_rate
            ≤ (consumeSeq user (l.take i)).1.token_balance)) := by
  refine ⟨fun a k => ?_, fun a k h => ?_, fun a k h => ?_, fun l i hi => ?_⟩
  · rw [consume_success_iff user a k hr, sub_nonneg]
  · obtain ⟨hb, t, ht, ha, _, _⟩ := consume_success_state user a k hr h
    exact ⟨hb, t, ht, ha⟩
  · exact consume_fail_state user a k true h
  · exact consumeSeq_getD l user hr i hi

/-- Witness for C1 at the spec's concrete instance: balance 10, discount rate
0.8, `consume` of amount 10 succeeds, debits exactly 8, and the appended
transaction's `amount` field is `-8`. -/
theorem consume_discounted_debit_correct_witness :
    exUser.discount_rate ≤ 1 ∧
    (consume exUser 10 none true).success = true ∧
    (consume exUser 10 none true).user.token_balance = 2 ∧
    ∃ t, (consume exUser 10 none true).txn = some t ∧ t.amount = -8 := by
  have h := consume_discounted_debit_correct exUser (by norm_num [exUser])
  have hs : (consume exUser 10 none true).success = true :=
    (h.1 10 none).mpr (by norm_num [exUser])
  have hstate := h.2.1 10 none hs
  refine ⟨by norm_num [exUser], hs, ?_, ?_⟩
  · rw [hstate.1]; norm_num [exUser]
  · obtain ⟨t, ht, ha⟩ := hstate.2
    refine ⟨t, ht, ?_⟩
    rw [ha]; norm_num [exUser]

theorem applyOp_balance (u : User) (op : LedgerOp) :
    (applyOp u op).user.token_balance
        = u.token_balance
            + (match (applyOp u op).txn with
               | some t => t.amount
               | none => 0) ∧
    ∀ t, (applyOp u op).txn = some t →
      t.balance_after = t.balance_before + t.amount := by
  cases op <;>
    (simp only [applyOp, recharge, consume, refund, adjust]
     split_ifs <;>
       first
         | (refine ⟨by simp [sub_eq_add_neg], fun t ht => ?_⟩
            simp only [Option.some.injEq] at ht
            rw [← ht]
            simp [sub_eq_add_neg])
         | simp)

/-- C2: every transaction appended by `recharge`, `consume`, `refund` or
`adjust` satisfies `balance_after = balance_before + amount`, and replaying
any sequence of such operations from a starting balance and summing the
appended transaction amounts reproduces the final `token_balance` exactly. -/
theorem ledger_replay_invariant (u : User) (ops : List LedgerOp) :
    (∀ t ∈ (runOps u ops).2, t.balance_after = t.balance_before + t.amount) ∧
    (runOps u ops).1.token_balance
      = u.token_balance + ((runOps u ops).2.map (fun t => t.amount)).sum := by
  induction ops generalizing u with
  | nil => simp [runOps]
  | cons op rest ih =>
    obtain ⟨h1, h2⟩ := applyOp_balance u op
    obtain ⟨ih1, ih2⟩ := ih (applyOp u op).user
    constructor
    · intro t ht
      simp only [runOps, List.mem_append] at ht
      rcases ht with ht | ht
      · cases hop : (applyOp u op).txn with
        | none => rw [hop] at ht; simp at ht
        | some t0 =>
          rw [hop] at ht
          simp at ht
          rw [ht]
          exact h2 t0 hop
      · exact ih1 t ht
    · simp only [runOps, List.map_append, List.sum_append]
      cases hop : (applyOp u op).txn with
      | none =>
        rw [hop] at h1
        simp only [hop] at *
        simp only [ih2, h1]
        simp
      | some t0 =>
        rw [hop] at h1
        simp only [hop] at *
        simp only [ih2, h1]
        simp
        ring

/-- API key row (`backend/app/models/api_key.py`).  `allowed_models` is
stored JSON-encoded in the source; it is embedded as the decoded list of
model names (`json.dumps`/`json.loads` round-trip identified).  The
server-maintained `created_at`/`updated_at` columns are not modelled. -/
structure APIKey where
  id : Int
  key : String
  key_hash : String
  name : String
  description : Option String
  user_id : Int
  is_active : Bool
  rate_limit : Int
  rate_limit_day : Option Int
  quota_limit : Option Rat
  quota_used : Rat
  token_limit : Option Rat
  token_used : Rat
  discount_rate : Rat
  allowed_models : List String
  last_used_at : Option Rat
  expires_at : Option Rat
  total_requests : Int
  total_tokens : Int
  total_cost : Rat
  batch_id : Option String
deriving Repr, DecidableEq

/-- `APIKeyService.get_key_by_hash` (`key_service.py`) over a list store. -/
def get_key_by_hash (store : List APIKey) (h : String) : Option APIKey :=
  store.find? (fun k => k.key_hash == h)

/-- `APIKeyService.get_key_by_id` (`key_service.py`) over a list store. -/
def get_key_by_id (store : List APIKey) (key_id : Int) : Option APIKey :=
  store.find? (fun k => k.id == key_id)

/-- The expiry test of `APIKeyService.validate_key`: Python
`api_key.expires_at and api_key.expires_at < datetime.now(...)`. -/
def expiredCheck (now : Rat) (k : APIKey) : Bool :=
  match k.expires_at with
  | some e => decide (e < now)
  | none => false

/-- The token-limit test of `validate_key`: Python
`api_key.token_limit is not None and api_key.token_used >= api_key.token_limit`. -/
def tokenExhausted (k : APIKey) : Bool :=
  match k.token_limit with
  | some tl => decide (k.token_used ≥ tl)
  | none => false

/-- The quota-limit test of `validate_key`: Python
`api_key.quota_limit is not None and api_key.quota_used >= api_key.quota_limit`. -/
def quotaExhausted (k : APIKey) : Bool :=
  match k.quota_limit with
  | some ql => decide (k.quota_used ≥ ql)
  | none => false

/-- `APIKeyService.validate_key` (`key_service.py`).  The SHA-256 digest is
abstracted as a function argument; the successful return carries the
`last_used_at` stamp the method writes. -/
def validate_key (hashFn : String → String) (store : List APIKey) (now : Rat)
    (plain : String) : Option APIKey :=
  match get_key_by_hash store (hashFn plain) with
  | none => none
  | some api_key =>
    if api_key.is_active = false then none
    else if expiredCheck now api_key = true then none
    else if tokenExhausted api_key = true then none
    else if quotaExhausted api_key = true then none
    else some { api_key with last_used_at := some now }

theorem bool_ne_false {b : Bool} (h : ¬(b = false)) : b = true := by
  cases b
  · exact absurd rfl h
  · rfl

theorem bool_ne_true {b : Bool} (h : ¬(b = true)) : b = false := by
  cases b
  · rfl
  · exact absurd rfl h

theorem expiredCheck_false_iff (now : Rat) (k : APIKey) :
    expiredCheck now k = false ↔ ∀ e, k.expires_at = some e → now ≤ e := by
  unfold expiredCheck
  cases k.expires_at <;> simp [not_lt]

theorem tokenExhausted_false_iff (k : APIKey) :
    tokenExhausted k = false ↔
      ∀ tl, k.token_limit = some tl → k.token_used < tl := by
  unfold tokenExhausted
  cases k.token_limit <;> simp [not_le]

theorem quotaExhausted_false_iff (k : APIKey) :
    quotaExhausted k = false ↔
      ∀ ql, k.quota_limit = some ql → k.quota_used < ql := by
  unfold quotaExhausted
  cases k.quota_limit <;> simp [not_le]

/-- C4: `validate_key` returns the key record (with the last-used timestamp
stamped to `now`) iff the presented secret's digest matches a stored key
that is active, not expired (`now ≤ expires_at` when set), not
token-exhausted (`token_used < token_limit` when set) and not
quota-exhausted (`quota_used < quota_limit` when set); when the digest
matches no stored key the result is `none`, and in every case the result is
either `none` or exactly the matched record with its last-used stamp. -/
theorem validate_key_characterization (hashFn : String → String)
    (store : List APIKey) (now : Rat) (plain : String) :
    (get_key_by_hash store (hashFn plain) = none →
        validate_key hashFn store now plain = none) ∧
    ∀ k, get_key_by_hash store (hashFn plain) = some k →
      ((validate_key hashFn store now plain
          = some { k with last_used_at := some now }) ↔
        (k.is_active = true ∧
         (∀ e, k.expires_at = some e → now ≤ e) ∧
         (∀ tl, k.token_limit = some tl → k.token_used < tl) ∧
         (∀ ql, k.quota_limit = some ql → k.quota_used < ql))) ∧
      (validate_key hashFn store now plain = none ∨
        validate_key hashFn store now plain
          = some { k with last_used_at := some now }) := by
  constructor
  · intro h
    unfold validate_key
    rw [h]
  · intro k hk
    constructor
    · constructor
      · intro hsome
        unfold validate_key at hsome
        rw [hk] at hsome
        dsimp only at hsome
        split_ifs at hsome with h1 h2 h3 h4
        exact ⟨bool_ne_false h1,
          (expiredCheck_false_iff now k).mp (bool_ne_true h2),
          (tokenExhausted_false_iff k).mp (bool_ne_true h3),
          (quotaExhausted_false_iff k).mp (bool_ne_true h4)⟩
      · rintro ⟨h1, h2, h3, h4⟩
        unfold validate_key
        rw [hk]
        dsimp only
        rw [if_neg (by rw [h1]; exact fun hc => Bool.noConfusion hc)]
        rw [if_neg (by rw [(expiredCheck_false_iff now k).mpr h2]
                       exact fun hc => Bool.noConfusion hc)]
        rw [if_neg (by rw [(tokenExhausted_false_iff k).mpr h3]
                       exact fun hc => Bool.noConfusion hc)]
        rw [if_neg (by rw [(quotaExhausted_false_iff k).mpr h4]
                       exact fun hc => Bool.noConfusion hc)]
    · unfold validate_key
      rw [hk]
      dsimp only
      split_ifs
      · exact Or.inl rfl
      · exact Or.inl rfl
      · exact Or.inl rfl
      · exact Or.inl rfl
      · exact Or.inr rfl

/-- A concrete stored key for evaluating the theorems: active, no expiry,
`token_limit = 1000` with `token_used = 999`, no quota limit. -/
def exKey : APIKey :=
  ⟨1, "masked", "h1", "k", none, 1, true, 60, none, none, 0, some 1000, 999,
    1, [], none, none, 0, 0, 0, none⟩

/-- Witness for C4: under a digest function sending the presented secret to
`exKey`'s stored hash, `validate_key` accepts the key (999 < 1000) and
stamps its last-used time. -/
theorem validate_key_characterization_witness :
    validate_key (fun _ => "h1") [exKey] 5 "secret"
      = some { exKey with last_used_at := some 5 } := by
  have h :=
    (validate_key_characterization (fun _ => "h1") [exKey] 5 "secret").2 exKey
      (by decide)
  refine (h.1).mpr ⟨rfl, ?_, ?_, ?_⟩
  · intro e he
    simp [exKey] at he
  · intro tl htl
    have : (1000 : Rat) = tl := by
      have := htl
      simp only [exKey, Option.some.injEq] at this
      exact this
    rw [← this]
    norm_num [exKey]
  · intro ql hql
    simp [exKey] at hql

/-- A dynamically-typed value assigned through the `setattr` reflection in
`APIKeyService.update_key` (`key_service.py`). -/
inductive FieldVal where
  | s (v : String)
  | os (v : Option String)
  | i (v : Int)
  | oi (v : Option Int)
  | q (v : Rat)
  | oq (v : Option Rat)
  | b (v : Bool)
  | ls (v : List String)
deriving Repr, DecidableEq

/-- The attribute names of the `APIKey` model, for the `hasattr` test in
`update_key`. -/
def keyAttrNames : List String :=
  ["id", "key", "key_hash", "name", "description", "user_id", "is_active",
   "rate_limit", "rate_limit_day", "quota_limit", "quota_used", "token_limit",
   "token_used", "discount_rate", "allowed_models", "last_used_at",
   "expires_at", "total_requests", "total_tokens", "total_cost", "batch_id"]

/-- Python `setattr(api_key, name, value)` specialised to the `APIKey`
model: assigns the named field when the value has the field's type
(a type-incompatible assignment, which Python would only reject at database
flush time, is modelled as the identity). -/
def setattrKey (k : APIKey) (name : String) (v : FieldVal) : APIKey :=
  if name = "id" then match v with | .i x => { k with id := x } | _ => k
  else if name = "key" then match v with | .s x => { k with key := x } | _ => k
  else if name = "key_hash" then match v with | .s x => { k with key_hash := x } | _ => k
  else if name = "name" then match v with | .s x => { k with name := x } | _ => k
  else if name = "description" then match v with | .os x => { k with description := x } | _ => k
  else if name = "user_id" then match v with | .i x => { k with user_id := x } | _ => k
  else if name = "is_active" then match v with | .b x => { k with is_active := x } | _ => k
  else if name = "rate_limit" then match v with | .i x => { k with rate_limit := x } | _ => k
  else if name = "rate_limit_day" then match v with | .oi x => { k with rate_limit_day := x } | _ => k
  else if name = "quota_limit" then match v with | .oq x => { k with quota_limit := x } | _ => k
  else if name = "quota_used" then match v with | .q x => { k with quota_used := x } | _ => k
  else if name = "token_limit" then match v with | .oq x => { k with token_limit := x } | _ => k
  else if name = "token_used" then match v with | .q x => { k with token_used := x } | _ => k
  else if name = "discount_rate" then match v with | .q x => { k with discount_rate := x } | _ => k
  else if name = "allowed_models" then match v with | .ls x => { k with allowed_models := x } | _ => k
  else if name = "last_used_at" then match v with | .oq x => { k with last_used_at := x } | _ => k
  else if name = "expires_at" then match v with | .oq x => { k with expires_at := x } | _ => k
  else if name = "total_requests" then match v with | .i x => { k with total_requests := x } | _ => k
  else if name = "total_tokens" then match v with | .i x => { k with total_tokens := x } | _ => k
  else if name = "total_cost" then match v with | .q x => { k with total_cost := x } | _ => k
  else if name = "batch_id" then match v with | .os x => { k with batch_id := x } | _ => k
  else k

/-- The `for key, value in kwargs.items()` loop of `update_key`: assign each
keyword argument whose name is an `APIKey` attribute and is not one of
`key`, `key_hash`, `user_id`. -/
def update_key_fold (k : APIKey) : List (String × FieldVal) → APIKey
  | [] => k
  | p :: rest =>
    update_key_fold
      (if p.1 ∈ keyAttrNames ∧ ¬(p.1 = "key" ∨ p.1 = "key_hash" ∨ p.1 = "user_id")
       then setattrKey k p.1 p.2
       else k)
      rest

/-- `APIKeyService.update_key` (`key_service.py`): look the key up by id,
require ownership, then apply the keyword arguments; returns the updated
record and the resulting store. -/
def update_key (store : List APIKey) (key_id user_id : Int)
    (kwargs : List (String × FieldVal)) : Option APIKey × List APIKey :=
  match get_key_by_id store key_id with
  | none => (none, store)
  | some api_key =>
    if ¬(api_key.user_id = user_id) then (none, store)
    else
      let updated := update_key_fold api_key kwargs
      (some updated, store.map (fun j => if j.id == api_key.id then updated else j))

/-- `APIKeyService.reset_key_usage` (`key_service.py`): zero the four usage
counters of the key, when it exists. -/
def reset_key_usage (store : List APIKey) (key_id : Int) :
    Option APIKey × List APIKey :=
  match get_key_by_id store key_id with
  | none => (none, store)
  | some api_key =>
    let updated := { api_key with
      quota_used := 0
      token_used := 0
      total_requests := 0
      total_tokens := 0 }
    (some updated, store.map (fun j => if j.id == api_key.id then updated else j))

theorem setattrKey_frame (k : APIKey) (name : String) (v : FieldVal)
    (h : ¬(name = "key" ∨ name = "key_hash" ∨ name = "user_id")) :
    (setattrKey k name v).key = k.key ∧
    (setattrKey k name v).key_hash = k.key_hash ∧
    (setattrKey k name v).user_id = k.user_id := by
  unfold setattrKey
  by_cases h1 : name = "id"
  · rw [if_pos h1]
    cases v <;> exact ⟨rfl, rfl, rfl⟩
  rw [if_neg h1]
  by_cases h2 : name = "key"
  · exact absurd (Or.inl h2) h
  rw [if_neg h2]
  by_cases h3 : name = "key_hash"
  · exact absurd (Or.inr (Or.inl h3)) h
  rw [if_neg h3]
  by_cases h4 : name = "name"
  · rw [if_pos h4]
    cases v <;> exact ⟨rfl, rfl, rfl⟩
  rw [if_neg h4]
  by_cases h5 : name = "description"
  · rw [if_pos h5]
    cases v <;> exact ⟨rfl, rfl, rfl⟩
  rw [if_neg h5]
  by_cases h6 : name = "user_id"
  · exact absurd (Or.inr (Or.inr h6)) h
  rw [if_neg h6]
  by_cases h7 : name = "is_active"
  · rw [if_pos h7]
    cases v <;> exact ⟨rfl, rfl, rfl⟩
  rw [if_neg h7]
  by_cases h8 : name = "rate_limit"
  · rw [if_pos h8]
    cases v <;> exact ⟨rfl, rfl, rfl⟩
  rw [if_neg h8]
  by_cases h9 : name = "rate_limit_day"
  · rw [if_pos h9]
    cases v <;> exact ⟨rfl, rfl, rfl⟩
  rw [if_neg h9]
  by_cases h10 : name = "quota_limit"
  · rw [if_pos h10]
    cases v <;> exact ⟨rfl, rfl, rfl⟩
  rw [if_neg h10]
  by_cases h11 : name = "quota_used"
  · rw [if_pos h11]
    cases v <;> exact ⟨rfl, rfl, rfl⟩
  rw [if_neg h11]
  by_cases h12 : name = "token_limit"
  · rw [if_pos h12]
    cases v <;> exact ⟨rfl, rfl, rfl⟩
  rw [if_neg h12]
  by_cases h13 : name = "token_used"
  · rw [if_pos h13]
    cases v <;> exact ⟨rfl, rfl, rfl⟩
  rw [if_neg h13]
  by_cases h14 : name = "discount_rate"
  · rw [if_pos h14]
    cases v <;> exact ⟨rfl, rfl, rfl⟩
  rw [if_neg h14]
  by_cases h15 : name = "allowed_models"
  · rw [if_pos h15]
    cases v <;> exact ⟨rfl, rfl, rfl⟩
  rw [if_neg h15]
  by_cases h16 : name = "last_used_at"
  · rw [if_pos h16]
    cases v <;> exact ⟨rfl, rfl, rfl⟩
  rw [if_neg h16]
  by_cases h17 : name = "expires_at"
  · rw [if_pos h17]
    cases v <;> exact ⟨rfl, rfl, rfl⟩
  rw [if_neg h17]
  by_cases h18 : name = "total_requests"
  · rw [if_pos h18]
    cases v <;> exact ⟨rfl, rfl, rfl⟩
  rw [if_neg h18]
  by_cases h19 : name = "total_tokens"
  · rw [if_pos h19]
    cases v <;> exact ⟨rfl, rfl, rfl⟩
  rw [if_neg h19]
  by_cases h20 : name = "total_cost"
  · rw [if_pos h20]
    cases v <;> exact ⟨rfl, rfl, rfl⟩
  rw [if_neg h20]
  by_cases h21 : name = "batch_id"
  · rw [if_pos h21]
    cases v <;> exact ⟨rfl, rfl, rfl⟩
  rw [if_neg h21]
  exact ⟨rfl, rfl, rfl⟩

theorem update_key_fold_frame (kwargs : List (String × FieldVal)) :
    ∀ k : APIKey, (update_key_fold k kwargs).key = k.key ∧
      (update_key_fold k kwargs).key_hash = k.key_hash ∧
      (update_key_fold k kwargs).user_id = k.user_id := by
  induction kwargs with
  | nil => intro k; exact ⟨rfl, rfl, rfl⟩
  | cons p rest ih =>
    intro k
    unfold update_key_fold
    by_cases hg :
        p.1 ∈ keyAttrNames ∧ ¬(p.1 = "key" ∨ p.1 = "key_hash" ∨ p.1 = "user_id")
    · rw [if_pos hg]
      obtain ⟨e1, e2, e3⟩ := ih (setattrKey k p.1 p.2)
      obtain ⟨f1, f2, f3⟩ := setattrKey_frame k p.1 p.2 hg.2
      exact ⟨e1.trans f1, e2.trans f2, e3.trans f3⟩
    · rw [if_neg hg]
      exact ih k

/-- C9: `update_key` never modifies the masked `key`, the `key_hash` or the
`user_id` fields, whatever keyword arguments are supplied; and when the key
does not exist or is not owned by the given user, it returns `none` and
leaves the store unchanged. -/
theorem update_key_preserves_secret_fields (store : List APIKey)
    (key_id user_id : Int) (kwargs : List (String × FieldVal)) :
    match get_key_by_id store key_id with
    | none => update_key store key_id user_id kwargs = (none, store)
    | some k =>
      if k.user_id = user_id then
        ∃ k1, update_key store key_id user_id kwargs
            = (some k1, store.map (fun j => if j.id == k.id then k1 else j)) ∧
          k1.key = k.key ∧ k1.key_hash = k.key_hash ∧ k1.user_id = k.user_id
      else update_key store key_id user_id kwargs = (none, store) := by
  cases hk : get_key_by_id store key_id with
  | none =>
    unfold update_key
    rw [hk]
  | some k =>
    dsimp only
    by_cases hu : k.user_id = user_id
    · rw [if_pos hu]
      obtain ⟨e1, e2, e3⟩ := update_key_fold_frame kwargs k
      refine ⟨update_key_fold k kwargs, ?_, e1, e2, e3⟩
      unfold update_key
      rw [hk]
      dsimp only
      rw [if_neg (not_not_intro hu)]
    · rw [if_neg hu]
      unfold update_key
      rw [hk]
      dsimp only
      rw [if_pos hu]

/-- C10: `reset_key_usage` sets exactly `quota_used`, `token_used`,
`total_requests` and `total_tokens` to zero and leaves every other field of
the key unchanged — in particular `total_cost`, `discount_rate`,
`is_active` and the limits are not reset; a missing key yields `none` and
an unchanged store. -/
theorem reset_key_usage_frame (store : List APIKey) (key_id : Int) :
    match get_key_by_id store key_id with
    | none => reset_key_usage store key_id = (none, store)
    | some k =>
      ∃ k1, reset_key_usage store key_id
          = (some k1, store.map (fun j => if j.id == k.id then k1 else j)) ∧
        k1.quota_used = 0 ∧ k1.token_used = 0 ∧ k1.total_requests = 0 ∧
        k1.total_tokens = 0 ∧ k1.id = k.id ∧ k1.key = k.key ∧
        k1.key_hash = k.key_hash ∧ k1.name = k.name ∧
        k1.description = k.description ∧ k1.user_id = k.user_id ∧
        k1.is_active = k.is_active ∧ k1.rate_limit = k.rate_limit ∧
        k1.rate_limit_day = k.rate_limit_day ∧ k1.quota_limit = k.quota_limit ∧
        k1.token_limit = k.token_limit ∧ k1.discount_rate = k.discount_rate ∧
        k1.allowed_models = k.allowed_models ∧
        k1.last_used_at = k.last_used_at ∧ k1.expires_at = k.expires_at ∧
        k1.total_cost = k.total_cost ∧ k1.batch_id = k.batch_id := by
  cases hk : get_key_by_id store key_id with
  | none =>
    unfold reset_key_usage
    rw [hk]
  | some k =>
    refine ⟨{ k with
      quota_used := 0
      token_used := 0
      total_requests := 0
      total_tokens := 0 }, ?_, rfl, rfl, rfl, rfl, rfl, rfl, rfl, rfl, rfl,
      rfl, rfl, rfl, rfl, rfl, rfl, rfl, rfl, rfl, rfl, rfl, rfl⟩
    unfold reset_key_usage
    rw [hk]

/-- In-memory rate limiter state (`middleware/rate_limit.py`,
`RateLimiter.requests`): map from scoping key to the recorded request
timestamps (a `defaultdict(list)`, so unknown keys read as `[]`). -/
def RLState : Type := String → List Rat

/-- The empty limiter state a process starts with. -/
def emptyRL : RLState := fun _ => []

/-- Python `x or default` for optional integer settings: `None` and `0` are
falsy and fall back to the default. -/
def orDefault (x : Option Int) (dflt : Int) : Int :=
  match x with
  | none => dflt
  | some v => if v = 0 then dflt else v

/-- `RateLimiter._cleanup_old_requests`: keep the timestamps younger than
the window. -/
def cleanup_old_requests (ts : List Rat) (current_time : Rat) (window : Int) :
    List Rat :=
  ts.filter (fun t => current_time - t < (window : Rat))

/-- `min(timestamps)` with the source's `if self.requests[key]` fallback to
the current time on an empty list. -/
def oldestOr (now : Rat) : List Rat → Rat
  | [] => now
  | t :: rest => rest.foldl min t

/-- The `(is_allowed, remaining, reset_in_seconds)` triple returned by
`RateLimiter.is_allowed`. -/
structure RateResult where
  allowed : Bool
  remaining : Int
  reset_in : Int
deriving Repr, DecidableEq

/-- `RateLimiter.is_allowed` (`middleware/rate_limit.py`): sliding-window
check at time `now`, returning the result triple and the updated state.
The global settings defaults are `rate_limit_requests = 100` and
`rate_limit_window = 60`; `settings.rate_limit_enabled` is the `enabled`
argument. -/
def is_allowed (enabled : Bool) (st : RLState) (key : String)
    (max_requests window : Option Int) (now : Rat) : RateResult × RLState :=
  if enabled = false then (⟨true, 999, 0⟩, st)
  else
    let maxr := orDefault max_requests 100
    let win := orDefault window 60
    let ts := cleanup_old_requests (st key) now win
    let current_count : Int := ts.length
    let remaining := max 0 (maxr - current_count - 1)
    if current_count ≥ maxr then
      let oldest := oldestOr now ts
      (⟨false, 0, Int.floor ((win : Rat) - (now - oldest))⟩,
        fun j => if j = key then ts else st j)
    else
      (⟨true, remaining, win⟩,
        fun j => if j = key then ts ++ [now] else st j)

theorem is_allowed_evicts (st : RLState) (key : String) (mr w : Option Int)
    (now : Rat) (hw : 0 < orDefault w 60) :
    ∀ t ∈ (is_allowed true st key mr w now).2 key,
      now - t < ((orDefault w 60 : Int) : Rat) := by
  intro t ht
  unfold is_allowed at ht
  dsimp only at ht
  rw [if_neg (by simp)] at ht
  split_ifs at ht with hc
  · dsimp only at ht
    rw [if_pos rfl] at ht
    unfold cleanup_old_requests at ht
    exact of_decide_eq_true (List.mem_filter.mp ht).2
  · dsimp only at ht
    rw [if_pos rfl] at ht
    rcases List.mem_append.mp ht with hm | hm
    · unfold cleanup_old_requests at hm
      exact of_decide_eq_true (List.mem_filter.mp hm).2
    · rw [List.mem_singleton.mp hm]
      rw [sub_self]
      exact_mod_cast hw

/-- C7: the rate limiter retains, for the checked scoping key, only
timestamps younger than the window (lazy eviction on each check); with
`max_requests = 3` and `window = 60`, three calls within one second are all
admitted, a fourth call in the same window is rejected with
`reset_in ≤ 60`, and a call after the window has passed is admitted again;
and with rate limiting globally disabled every call is admitted. -/
theorem rate_limiter_sliding_window (key : String) (t1 t2 t3 t4 t5 : Rat)
    (h12 : t1 ≤ t2) (h23 : t2 ≤ t3) (h34 : t3 ≤ t4) (hburst : t3 - t1 ≤ 1)
    (hwin : t4 - t1 < 60) (hpass : 60 ≤ t5 - t3) :
    (∀ (st : RLState) (mr w : Option Int) (now : Rat),
        0 < orDefault w 60 →
        ∀ t ∈ (is_allowed true st key mr w now).2 key,
          now - t < ((orDefault w 60 : Int) : Rat)) ∧
    (∀ (st : RLState) (mr w : Option Int) (now : Rat),
        (is_allowed false st key mr w now).1.allowed = true) ∧
    (let r1 := is_allowed true emptyRL key (some 3) (some 60) t1
     let r2 := is_allowed true r1.2 key (some 3) (some 60) t2
     let r3 := is_allowed true r2.2 key (some 3) (some 60) t3
     let r4 := is_allowed true r3.2 key (some 3) (some 60) t4
     let r5 := is_allowed true r4.2 key (some 3) (some 60) t5
     r1.1.allowed = true ∧ r2.1.allowed = true ∧ r3.1.allowed = true ∧
       r4.1.allowed = false ∧ r4.1.reset_in ≤ 60 ∧
       r5.1.allowed = true) := by
  refine ⟨fun st mr w now hw => is_allowed_evicts st key mr w now hw,
    fun st mr w now => rfl, ?_⟩
  have f21 : t2 - t1 < (60 : Rat) := by linarith
  have f31 : t3 - t1 < (60 : Rat) := by linarith
  have f32 : t3 - t2 < (60 : Rat) := by linarith
  have f42 : t4 - t2 < (60 : Rat) := by linarith
  have f43 : t4 - t3 < (60 : Rat) := by linarith
  have g1 : ¬(t5 - t1 < (60 : Rat)) := not_lt.mpr (by linarith)
  have g2 : ¬(t5 - t2 < (60 : Rat)) := not_lt.mpr (by linarith)
  have g3 : ¬(t5 - t3 < (60 : Rat)) := not_lt.mpr (by linarith)
  have step1 : ∀ st : RLState, st key = [] →
      (is_allowed true st key (some 3) (some 60) t1).1.allowed = true ∧
      (is_allowed true st key (some 3) (some 60) t1).2 key = [t1] := by
    intro st hst
    unfold is_allowed
    dsimp only
    rw [hst]
    norm_num [cleanup_old_requests, orDefault]
  have step2 : ∀ st : RLState, st key = [t1] →
      (is_allowed true st key (some 3) (some 60) t2).1.allowed = true ∧
      (is_allowed true st key (some 3) (some 60) t2).2 key = [t1, t2] := by
    intro st hst
    unfold is_allowed
    dsimp only
    rw [hst]
    norm_num [cleanup_old_requests, orDefault, f21]
  have step3 : ∀ st : RLState, st key = [t1, t2] →
      (is_allowed true st key (some 3) (some 60) t3).1.allowed = true ∧
      (is_allowed true st key (some 3) (some 60) t3).2 key = [t1, t2, t3] := by
    intro st hst
    unfold is_allowed
    dsimp only
    rw [hst]
    norm_num [cleanup_old_requests, orDefault, f31, f32]
  have hold : oldestOr t4 [t1, t2, t3] = t1 := by
    unfold oldestOr
    simp only [List.foldl_cons, List.foldl_nil]
    rw [min_eq_left h12, min_eq_left (le_trans h12 h23)]
  have hfloor : Int.floor ((60 : Rat) - (t4 - t1)) ≤ (60 : Int) := by
    have h1 : (60 : Rat) - (t4 - t1) ≤ (60 : Rat) := by linarith
    have h2 := Int.floor_le_floor h1
    simpa using h2
  have step4 : ∀ st : RLState, st key = [t1, t2, t3] →
      (is_allowed true st key (some 3) (some 60) t4).1.allowed = false ∧
      (is_allowed true st key (some 3) (some 60) t4).1.reset_in ≤ 60 ∧
      (is_allowed true st key (some 3) (some 60) t4).2 key = [t1, t2, t3] := by
    intro st hst
    unfold is_allowed
    dsimp only
    rw [hst]
    norm_num [cleanup_old_requests, orDefault, hwin, f42, f43, hold, hfloor]
  have step5 : ∀ st : RLState, st key = [t1, t2, t3] →
      (is_allowed true st key (some 3) (some 60) t5).1.allowed = true := by
    intro st hst
    unfold is_allowed
    dsimp only
    rw [hst]
    norm_num [cleanup_old_requests, orDefault, g1, g2, g3]
  dsimp only
  obtain ⟨a1, e1⟩ := step1 emptyRL rfl
  obtain ⟨a2, e2⟩ := step2 _ e1
  obtain ⟨a3, e3⟩ := step3 _ e2
  obtain ⟨a4, b4, e4⟩ := step4 _ e3
  have a5 := step5 _ e4
  exact ⟨a1, a2, a3, a4, b4, a5⟩

/-- Witness for C7 at concrete times 0, 1/2, 1, 2, 61: three admissions,
one rejection with `reset_in ≤ 60`, then admission after the window. -/
theorem rate_limiter_sliding_window_witness :
    (let r1 := is_allowed true emptyRL "k" (some 3) (some 60) 0
     let r2 := is_allowed true r1.2 "k" (some 3) (some 60) (1/2)
     let r3 := is_allowed true r2.2 "k" (some 3) (some 60) 1
     let r4 := is_allowed true r3.2 "k" (some 3) (some 60) 2
     let r5 := is_allowed true r4.2 "k" (some 3) (some 60) 61
     r1.1.allowed = true ∧ r2.1.allowed = true ∧ r3.1.allowed = true ∧
       r4.1.allowed = false ∧ r4.1.reset_in ≤ 60 ∧
       r5.1.allowed = true) :=
  (rate_limiter_sliding_window "k" 0 (1/2) 1 2 61 (by norm_num) (by norm_num)
    (by norm_num) (by norm_num) (by norm_num) (by norm_num)).2.2

/-- Usage record row (`backend/app/models/usage.py`).  The random
`request_id`, the wall-clock `response_time_ms` and `created_at` are
environment-supplied and not modelled. -/
structure UsageRecord where
  user_id : Int
  api_key_id : Int
  endpoint : String
  method : String
  model : Option String
  prompt_tokens : Int
  completion_tokens : Int
  total_tokens : Int
  cost : Rat
  status_code : Option Int
  is_streaming : Bool
  is_success : Bool
  error_message : Option String
deriving Repr, DecidableEq

/-- `UsageService.record_usage` (`usage_service.py`): builds the appended
row; `total_tokens` is always `prompt_tokens + completion_tokens`. -/
def record_usage (user_id api_key_id : Int) (endpoint method : String)
    (model : Option String) (prompt_tokens completion_tokens : Int)
    (cost : Rat) (status_code : Option Int) (is_streaming is_success : Bool)
    (error_message : Option String) : UsageRecord :=
  ⟨user_id, api_key_id, endpoint, method, model, prompt_tokens,
    completion_tokens, prompt_tokens + completion_tokens, cost, status_code,
    is_streaming, is_success, error_message⟩

/-- `APIKeyService.increment_usage` (`key_service.py`) applied to a fetched
key row. -/
def increment_usage (api_key : APIKey) (tokens : Int) (cost : Rat)
    (apply_discount : Bool) : APIKey :=
  let actual_cost :=
    if apply_discount = true ∧ api_key.discount_rate < 1 then
      cost * api_key.discount_rate
    else cost
  { api_key with
    total_requests := api_key.total_requests + 1
    total_tokens := api_key.total_tokens + tokens
    token_used := api_key.token_used + (tokens : Rat)
    quota_used := api_key.quota_used + actual_cost
    total_cost := api_key.total_cost + actual_cost }

/-- `APIKeyService.check_quota` (`key_service.py`) for a fetched key:
`(has_quota, used, limit)`; no per-key limit defers to the user limit. -/
def check_quota (k : APIKey) : Bool × Rat × Option Rat :=
  match k.quota_limit with
  | none => (true, k.quota_used, none)
  | some ql => (decide (k.quota_used < ql), k.quota_used, some ql)

/-- `UserService.check_quota` (`user_service.py`) for a fetched user. -/
def user_check_quota (u : User) : Bool × Rat × Rat :=
  (decide (u.quota_used < u.quota_limit), u.quota_used, u.quota_limit)

/-- `APIKeyService.check_model_access` (`key_service.py`) for a fetched
key: an empty allow-list admits every model. -/
def check_model_access (k : APIKey) (model : String) : Bool :=
  if k.allowed_models.isEmpty then true
  else decide (model ∈ k.allowed_models)

/-- The `usage` object best-effort parsed from an upstream JSON body;
missing `prompt_tokens`/`completion_tokens` entries read as 0 via
`usage.get(..., 0)`. -/
structure UpstreamUsage where
  prompt_tokens : Option Int
  completion_tokens : Option Int
deriving Repr, DecidableEq

/-- `extract_usage_from_response` (`routers/proxy.py`) together with the
surrounding try/except of `handle_normal_request`: a body that is not JSON
or carries no usage object yields zero tokens, not an error. -/
def extract_usage (u : Option UpstreamUsage) : Int × Int :=
  match u with
  | none => (0, 0)
  | some uu => (uu.prompt_tokens.getD 0, uu.completion_tokens.getD 0)

/-- Outcome of the single upstream HTTP call issued by the proxy. -/
inductive UpstreamOutcome where
  | response (status_code : Int) (usage : Option UpstreamUsage)
  | timeout
  | requestError (msg : String)
deriving Repr, DecidableEq

/-- What the caller of `proxy_request` observes: a raised `HTTPException`
with a status and detail text, or a relayed upstream response. -/
inductive ProxyOutcome where
  | httpError (status_code : Int) (detail : String)
  | ok (status_code : Int)
deriving Repr, DecidableEq

/-- Result of one non-streaming proxied call: the caller-visible outcome,
the usage records appended, the key and owner rows as left in the session,
and the rate limiter state. -/
structure ProxyResult where
  outcome : ProxyOutcome
  records : List UsageRecord
  key : APIKey
  owner : User
  rl : RLState

/-- `handle_normal_request` (`routers/proxy.py`): record the parsed usage
and cost (`(prompt+completion)/1000 * 0.001`) and increment the key's
counters (per-key discount applied by `increment_usage`). -/
def handle_normal_request (api_key : APIKey) (path method : String)
    (model : Option String) (status_code : Int)
    (usage : Option UpstreamUsage) : UsageRecord × APIKey :=
  let pc := extract_usage usage
  let cost : Rat := ((pc.1 + pc.2 : Int) : Rat) / 1000 * (1 / 1000)
  let rec1 := record_usage api_key.user_id api_key.id path method model
    pc.1 pc.2 cost (some status_code) false (decide (status_code < 400)) none
  (rec1, increment_usage api_key (pc.1 + pc.2) cost true)

/-- The try/except around the upstream call in `proxy_request`
(`routers/proxy.py`): a timeout is recorded as a failed usage event with
status 504 and re-raised as HTTP 504; a connection failure likewise with
status 502; otherwise `handle_normal_request` runs.  `ar` is the rate
limiter result whose state the call leaves behind. -/
def proxy_forward (ar : RateResult × RLState) (api_key : APIKey)
    (owner : User) (path method : String) (model : Option String)
    (upstream : UpstreamOutcome) : ProxyResult :=
  match upstream with
  | .timeout =>
    ⟨.httpError 504 "Upstream timeout",
      [record_usage api_key.user_id api_key.id path method model 0 0 0
        (some 504) false false (some "Upstream timeout")],
      api_key, owner, ar.2⟩
  | .requestError msg =>
    ⟨.httpError 502 ("Upstream error: " ++ msg),
      [record_usage api_key.user_id api_key.id path method model 0 0 0
        (some 502) false false (some msg)],
      api_key, owner, ar.2⟩
  | .response status_code usage =>
    let hn := handle_normal_request api_key path method model status_code usage
    ⟨.ok status_code, [hn.1], hn.2, owner, ar.2⟩

/-- `proxy_request` (`routers/proxy.py`) for a non-streaming request, with
the upstream call's outcome supplied as a parameter: rate limiting, key
quota, user quota and model-access checks in source order, then the
upstream call with its try/except recording of timeout (504) and
connection failure (502). -/
def proxy_request_ns (rlEnabled : Bool) (rl : RLState) (now : Rat)
    (api_key : APIKey) (owner : User) (path method : String)
    (model : Option String) (upstream : UpstreamOutcome) : ProxyResult :=
  let ar := is_allowed rlEnabled rl ("api_key:" ++ toString api_key.id)
    (some api_key.rate_limit) (some 60) now
  if ar.1.allowed = false then
    ⟨.httpError 429 ("Rate limit exceeded. Try again in "
        ++ toString ar.1.reset_in ++ " seconds."), [], api_key, owner, ar.2⟩
  else
    let kq := check_quota api_key
    if kq.2.2.isSome ∧ kq.1 = false then
      ⟨.httpError 429 "API key quota exceeded", [], api_key, owner, ar.2⟩
    else
      let uq := user_check_quota owner
      if uq.1 = false then
        ⟨.httpError 429 "User quota exceeded", [], api_key, owner, ar.2⟩
      else
        match model with
        | some m =>
          if check_model_access api_key m = false then
            ⟨.httpError 403 ("API key does not have access to model: " ++ m),
              [], api_key, owner, ar.2⟩
          else proxy_forward ar api_key owner path method (some m) upstream
        | none => proxy_forward ar api_key owner path method none upstream

/-- When every admission check passes, `proxy_request_ns` reaches the
upstream call and behaves as `proxy_forward`. -/
theorem proxy_request_ns_admitted (rlEnabled : Bool) (rl : RLState)
    (now : Rat) (api_key : APIKey) (owner : User) (path method : String)
    (model : Option String) (upstream : UpstreamOutcome)
    (hallow : (is_allowed rlEnabled rl ("api_key:" ++ toString api_key.id)
        (some api_key.rate_limit) (some 60) now).1.allowed = true)
    (hkq : ¬((check_quota api_key).2.2.isSome = true ∧
        (check_quota api_key).1 = false))
    (huq : (user_check_quota owner).1 = true)
    (hm : ∀ m, model = some m → check_model_access api_key m = true) :
    proxy_request_ns rlEnabled rl now api_key owner path method model upstream
      = proxy_forward
          (is_allowed rlEnabled rl ("api_key:" ++ toString api_key.id)
            (some api_key.rate_limit) (some 60) now)
          api_key owner path method model upstream := by
  unfold proxy_request_ns
  dsimp only
  rw [if_neg (by simp [hallow])]
  rw [if_neg hkq]
  rw [if_neg (by simp [huq])]
  cases model with
  | none => rfl
  | some m =>
    dsimp only
    rw [if_neg (by simp [hm m rfl])]

/-- An admitted call under an enabled limiter leaves its timestamp in the
limiter state. -/
theorem is_allowed_records_now (st : RLState) (key : String)
    (mr w : Option Int) (now : Rat)
    (h : (is_allowed true st key mr w now).1.allowed = true) :
    now ∈ (is_allowed true st key mr w now).2 key := by
  unfold is_allowed at h ⊢
  dsimp only at h ⊢
  rw [if_neg (by simp)] at h ⊢
  split_ifs at h ⊢ with hc
  dsimp only
  rw [if_pos rfl]
  exact List.mem_append.mpr (Or.inr (List.mem_singleton.mpr rfl))

/-- C5: when the upstream call times out or the connection fails, exactly
one usage record is appended — status 504 (timeout) or 502 (connection
failure), zero tokens, zero cost, `is_success = false`, error text set —
the corresponding HTTP error is propagated, the key's counters and the
owner row are untouched, and the rate limiter retains the timestamp
recorded for the attempt. -/
theorem upstream_failure_recorded (rl : RLState) (now : Rat)
    (api_key : APIKey) (owner : User) (path method : String)
    (model : Option String)
    (hallow : (is_allowed true rl ("api_key:" ++ toString api_key.id)
        (some api_key.rate_limit) (some 60) now).1.allowed = true)
    (hkq : ¬((check_quota api_key).2.2.isSome = true ∧
        (check_quota api_key).1 = false))
    (huq : (user_check_quota owner).1 = true)
    (hm : ∀ m, model = some m → check_model_access api_key m = true) :
    (let r := proxy_request_ns true rl now api_key owner path method model
        .timeout
     r.outcome = .httpError 504 "Upstream timeout" ∧
     r.records = [record_usage api_key.user_id api_key.id path method model
        0 0 0 (some 504) false false (some "Upstream timeout")] ∧
     r.key = api_key ∧ r.owner = owner ∧
     now ∈ r.rl ("api_key:" ++ toString api_key.id)) ∧
    (∀ msg,
      let r := proxy_request_ns true rl now api_key owner path method model
        (.requestError msg)
      r.outcome = .httpError 502 ("Upstream error: " ++ msg) ∧
      r.records = [record_usage api_key.user_id api_key.id path method model
        0 0 0 (some 502) false false (some msg)] ∧
      r.key = api_key ∧ r.owner = owner ∧
      now ∈ r.rl ("api_key:" ++ toString api_key.id)) := by
  have hmem := is_allowed_records_now rl ("api_key:" ++ toString api_key.id)
    (some api_key.rate_limit) (some 60) now hallow
  constructor
  · dsimp only
    rw [proxy_request_ns_admitted true rl now api_key owner path method model
      .timeout hallow hkq huq hm]
    exact ⟨rfl, rfl, rfl, rfl, hmem⟩
  · intro msg
    dsimp only
    rw [proxy_request_ns_admitted true rl now api_key owner path method model
      (.requestError msg) hallow hkq huq hm]
    exact ⟨rfl, rfl, rfl, rfl, hmem⟩

/-- A permissive concrete key: active, no limits, no allow-list. -/
def exKeyPlain : APIKey :=
  ⟨3, "m3", "h3", "k3", none, 1, true, 60, none, none, 0, none, 0, 1, [],
    none, none, 0, 0, 0, none⟩

/-- A concrete owner with quota 0/100 used. -/
def exOwner : User := ⟨1, true, false, 100, 0, 0, 0, 0, 1⟩

/-- Witness for C5: a concrete timed-out call records one 504 failure
event, leaves the key untouched and keeps the rate-limit timestamp. -/
theorem upstream_failure_recorded_witness :
    (let r := proxy_request_ns true emptyRL 7 exKeyPlain exOwner "/v1/chat"
        "POST" none .timeout
     r.outcome = .httpError 504 "Upstream timeout" ∧
     r.records = [record_usage exKeyPlain.user_id exKeyPlain.id "/v1/chat"
        "POST" none 0 0 0 (some 504) false false (some "Upstream timeout")] ∧
     r.key = exKeyPlain ∧ r.owner = exOwner ∧
     (7 : Rat) ∈ r.rl ("api_key:" ++ toString exKeyPlain.id)) :=
  (upstream_failure_recorded emptyRL 7 exKeyPlain exOwner "/v1/chat" "POST"
    none (by decide) (by decide) (by decide)
    (fun m hm => by cases hm)).1

/-- A concrete key whose daily rate limit is exhausted by definition:
`rate_limit_day = some 0`. -/
def exKeyDay0 : APIKey :=
  ⟨2, "m2", "h2", "k2", none, 1, true, 60, some 0, none, 0, none, 0, 1, [],
    none, none, 0, 0, 0, none⟩

/-- C3 counterexample: the proxied admission pipeline admits a request on a
key with `rate_limit_day = some 0` (whose daily rate check, had it been
performed, could never pass), so no daily rate check is performed;
`APIKeyService.check_rate_limit_day` exists but `proxy_request` never
invokes it. -/
theorem daily_rate_limit_not_checked :
    exKeyDay0.rate_limit_day = some 0 ∧
    (proxy_request_ns false emptyRL 0 exKeyDay0 exOwner "/v1/chat" "POST"
        none (.response 200 none)).outcome = .ok 200 :=
  ⟨rfl, by decide⟩

/-- C3 amended: the admission decision of `proxy_request` runs, in order
and with the first failing check terminal: (1) the per-minute rate limiter
at the key's `rate_limit` over a 60-second window, (2) the key quota check
(when `quota_limit` is set), (3) the owner quota check, (4) the model
allow-list check when the request declares a model; no daily rate check and
no token-budget check occur in this pipeline (token exhaustion is enforced
earlier, by `validate_key`, per C4). -/
theorem proxy_admission_first_failure (rlEnabled : Bool) (rl : RLState)
    (now : Rat) (api_key : APIKey) (owner : User) (path method : String)
    (model : Option String) (upstream : UpstreamOutcome) :
    (let ar := is_allowed rlEnabled rl ("api_key:" ++ toString api_key.id)
        (some api_key.rate_limit) (some 60) now
     let r := proxy_request_ns rlEnabled rl now api_key owner path method
        model upstream
     (ar.1.allowed = false →
        r.outcome = .httpError 429 ("Rate limit exceeded. Try again in "
          ++ toString ar.1.reset_in ++ " seconds.") ∧ r.records = []) ∧
     (ar.1.allowed = true →
      (check_quota api_key).2.2.isSome = true →
      (check_quota api_key).1 = false →
        r.outcome = .httpError 429 "API key quota exceeded" ∧
        r.records = []) ∧
     (ar.1.allowed = true →
      ¬((check_quota api_key).2.2.isSome = true ∧
          (check_quota api_key).1 = false) →
      (user_check_quota owner).1 = false →
        r.outcome = .httpError 429 "User quota exceeded" ∧ r.records = []) ∧
     (ar.1.allowed = true →
      ¬((check_quota api_key).2.2.isSome = true ∧
          (check_quota api_key).1 = false) →
      (user_check_quota owner).1 = true →
      ∀ m, model = some m → check_model_access api_key m = false →
        r.outcome = .httpError 403
          ("API key does not have access to model: " ++ m) ∧
        r.records = []) ∧
     (ar.1.allowed = true →
      ¬((check_quota api_key).2.2.isSome = true ∧
          (check_quota api_key).1 = false) →
      (user_check_quota owner).1 = true →
      (∀ m, model = some m → check_model_access api_key m = true) →
      ∀ sc usage, upstream = .response sc usage →
        r.outcome = .ok sc)) := by
  dsimp only
  refine ⟨?_, ?_, ?_, ?_, ?_⟩
  · intro h
    unfold proxy_request_ns
    dsimp only
    rw [if_pos h]
    exact ⟨rfl, rfl⟩
  · intro h1 h2 h3
    unfold proxy_request_ns
    dsimp only
    rw [if_neg (by simp [h1])]
    rw [if_pos ⟨h2, h3⟩]
    exact ⟨rfl, rfl⟩
  · intro h1 h2 h3
    unfold proxy_request_ns
    dsimp only
    rw [if_neg (by simp [h1])]
    rw [if_neg h2]
    rw [if_pos h3]
    exact ⟨rfl, rfl⟩
  · intro h1 h2 h3 m hm hacc
    unfold proxy_request_ns
    dsimp only
    rw [if_neg (by simp [h1])]
    rw [if_neg h2]
    rw [if_neg (by simp [h3])]
    rw [hm]
    dsimp only
    rw [if_pos hacc]
    exact ⟨rfl, rfl⟩
  · intro h1 h2 h3 h4 sc usage hup
    rw [hup]
    rw [proxy_request_ns_admitted rlEnabled rl now api_key owner path method
      model (.response sc usage) h1 h2 h3 h4]
    rfl

/-- Witness for C3 amended, at the all-checks-pass case: a concrete
admitted request relays the upstream 200. -/
theorem proxy_admission_first_failure_witness :
    (proxy_request_ns false emptyRL 0 exKeyPlain exOwner "/v1/chat" "POST"
        none (.response 200 none)).outcome = .ok 200 := by
  have h := proxy_admission_first_failure false emptyRL 0 exKeyPlain exOwner
    "/v1/chat" "POST" none (.response 200 none)
  exact h.2.2.2.2 (by decide) (by decide) (by decide)
    (fun m hm => by cases hm) 200 none rfl

/-- C6 counterexample: a completed call that billed a positive cost leaves
the owner's quota counter unchanged — `UserService.update_quota_used` is
never invoked by the proxy pipeline, so the cost is not applied to the
owner's counter as claimed. -/
theorem owner_quota_counter_not_updated :
    (let r := proxy_request_ns false emptyRL 0 exKeyPlain exOwner "/v1/chat"
        "POST" none (.response 200 (some ⟨some 1000, some 500⟩))
     r.records.map (fun rec => rec.cost) = [3/2000] ∧
     r.key.quota_used = exKeyPlain.quota_used + 3/2000 ∧
     r.owner.quota_used = exOwner.quota_used ∧
     ¬(r.owner.quota_used = exOwner.quota_used + 3/2000)) := by
  dsimp only
  rw [proxy_request_ns_admitted false emptyRL 0 exKeyPlain exOwner "/v1/chat"
    "POST" none (.response 200 (some ⟨some 1000, some 500⟩)) (by decide)
    (by decide) (by decide) (fun m hm => by cases hm)]
  unfold proxy_forward handle_normal_request increment_usage extract_usage
  unfold record_usage
  dsimp only
  refine ⟨?_, ?_, ?_, ?_⟩
  · norm_num
  · norm_num [exKeyPlain]
  · rfl
  · norm_num [exOwner]

/-- C6 amended: after a completed non-streaming call, the token usage
parsed from the upstream response (zero when absent, not an error) and the
cost computed from it are recorded as exactly one usage record and applied
to the key's counters — `token_used`, `quota_used`, `total_requests`,
`total_tokens`, `total_cost`, with the per-key discount applied to the
cost — while the owner's quota counter is NOT updated (the owner row is
left unchanged). -/
theorem normal_request_metering (rlEnabled : Bool) (rl : RLState)
    (now : Rat) (api_key : APIKey) (owner : User) (path method : String)
    (model : Option String) (sc : Int) (usage : Option UpstreamUsage)
    (hallow : (is_allowed rlEnabled rl ("api_key:" ++ toString api_key.id)
        (some api_key.rate_limit) (some 60) now).1.allowed = true)
    (hkq : ¬((check_quota api_key).2.2.isSome = true ∧
        (check_quota api_key).1 = false))
    (huq : (user_check_quota owner).1 = true)
    (hm : ∀ m, model = some m → check_model_access api_key m = true) :
    (let r := proxy_request_ns rlEnabled rl now api_key owner path method
        model (.response sc usage)
     let pc := extract_usage usage
     let cost : Rat := ((pc.1 + pc.2 : Int) : Rat) / 1000 * (1 / 1000)
     r.outcome = .ok sc ∧
     r.records = [record_usage api_key.user_id api_key.id path method model
        pc.1 pc.2 cost (some sc) false (decide (sc < 400)) none] ∧
     r.key.token_used = api_key.token_used + ((pc.1 + pc.2 : Int) : Rat) ∧
     r.key.total_tokens = api_key.total_tokens + (pc.1 + pc.2) ∧
     r.key.total_requests = api_key.total_requests + 1 ∧
     r.key.quota_used = api_key.quota_used +
       (if api_key.discount_rate < 1 then cost * api_key.discount_rate
        else cost) ∧
     r.key.total_cost = api_key.total_cost +
       (if api_key.discount_rate < 1 then cost * api_key.discount_rate
        else cost) ∧
     r.owner = owner ∧
     (usage = none → pc = (0, 0))) := by
  dsimp only
  rw [proxy_request_ns_admitted rlEnabled rl now api_key owner path method
    model (.response sc usage) hallow hkq huq hm]
  unfold proxy_forward handle_normal_request increment_usage
  dsimp only
  by_cases hd : api_key.discount_rate < 1
  · rw [if_pos ⟨rfl, hd⟩, if_pos hd]
    refine ⟨rfl, rfl, rfl, rfl, rfl, rfl, rfl, rfl, ?_⟩
    intro h
    rw [h]
    rfl
  · rw [if_neg (by simp [hd]), if_neg hd]
    refine ⟨rfl, rfl, rfl, rfl, rfl, rfl, rfl, rfl, ?_⟩
    intro h
    rw [h]
    rfl

/-- Witness for C6 amended: a concrete completed call with usage
`(1000, 500)` records one entry with cost `3/2000` and increments the
key's counters while leaving the owner row unchanged. -/
theorem normal_request_metering_witness :
    (let r := proxy_request_ns false emptyRL 0 exKeyPlain exOwner "/v1/chat"
        "POST" none (.response 200 (some ⟨some 1000, some 500⟩))
     r.outcome = .ok 200 ∧
     r.key.token_used = exKeyPlain.token_used + ((1500 : Int) : Rat) ∧
     r.owner = exOwner) := by
  have h := normal_request_metering false emptyRL 0 exKeyPlain exOwner
    "/v1/chat" "POST" none 200 (some ⟨some 1000, some 500⟩) (by decide)
    (by decide) (by decide) (fun m hm => by cases hm)
  exact ⟨h.1, h.2.2.1, h.2.2.2.2.2.2.2.1⟩

/-- One lowercase hexadecimal digit, as Python's `bytes.hex` renders it. -/
def hexDigit (n : Fin 16) : Char :=
  if n.val < 10 then Char.ofNat (48 + n.val) else Char.ofNat (87 + n.val)

/-- Hex rendering of one byte: high nibble then low nibble. -/
def byteToHex (b : Fin 256) : List Char :=
  [hexDigit ⟨b.val / 16, by
      have := b.isLt
      omega⟩,
   hexDigit ⟨b.val % 16, Nat.mod_lt _ (by norm_num)⟩]

/-- `bytes.hex()` over a byte string. -/
def bytesToHex : List (Fin 256) → List Char
  | [] => []
  | b :: rest => byteToHex b ++ bytesToHex rest

/-- `generate_api_key` (`utils/auth.py`) as a function of the 32-byte draw
of `secrets.token_bytes(32)`: hex-encode, keep the first 48 characters,
prefix with `settings.api_key_prefix = "ahg"` and an underscore. -/
def generate_api_key (draw : List (Fin 256)) : String :=
  String.mk ("ahg_".toList ++ (bytesToHex draw).take 48)

/-- The masked display form stored by `create_key` (`key_service.py`):
`plain_key[:20] + "..." + plain_key[-8:]`. -/
def maskKey (plain_key : String) : String :=
  String.mk (plain_key.toList.take 20 ++ "...".toList
    ++ plain_key.toList.drop (plain_key.toList.length - 8))

/-- `APIKeyService.create_key` (`key_service.py`) as a function of the
random draw, with the service's default policy arguments; returns the
stored row and the plaintext.  Only the masked form and the digest of the
plaintext are stored.  The digest function is abstract; the
database-assigned id is 0. -/
def create_key (hashFn : String → String) (draw : List (Fin 256))
    (user_id : Int) (name : String) : APIKey × String :=
  let plain_key := generate_api_key draw
  let key_hash := hashFn plain_key
  (⟨0, maskKey plain_key, key_hash, name, none, user_id, true, 60, none,
    none, 0, none, 0, 1, [], none, none, 0, 0, 0, none⟩, plain_key)

/-- The all-zero 32-byte draw. -/
def drawA : List (Fin 256) := List.replicate 32 0

/-- A draw differing from `drawA` only in its last byte. -/
def drawB : List (Fin 256) := List.replicate 31 0 ++ [1]

/-- A draw differing from `drawA` in its first byte. -/
def drawC : List (Fin 256) := 1 :: List.replicate 31 0

/-- C8 counterexample: two distinct 32-byte draws that differ (only) in the
last byte produce the same token — `hex()[:48]` discards the final 8 bytes,
so the token carries 192, not 256, bits of the draw. -/
theorem api_key_entropy_loss :
    drawA ≠ drawB ∧ drawA.length = 32 ∧ drawB.length = 32 ∧
    generate_api_key drawA = generate_api_key drawB := by
  refine ⟨by decide, by decide, by decide, by decide⟩

theorem hexDigit_injective :
    ∀ a b : Fin 16, hexDigit a = hexDigit b → a = b := by decide

theorem byteToHex_inj (a b : Fin 256) (h : byteToHex a = byteToHex b) :
    a = b := by
  unfold byteToHex at h
  simp only [List.cons.injEq, and_true] at h
  have e1 := hexDigit_injective _ _ h.1
  have e2 := hexDigit_injective _ _ h.2
  simp only [Fin.mk.injEq] at e1 e2
  have := b.isLt
  apply Fin.ext
  omega

theorem bytesToHex_inj :
    ∀ d1 d2 : List (Fin 256), d1.length = d2.length →
      bytesToHex d1 = bytesToHex d2 → d1 = d2 := by
  intro d1
  induction d1 with
  | nil =>
    intro d2 hl h
    cases d2 with
    | nil => rfl
    | cons b t => simp at hl
  | cons a t ih =>
    intro d2 hl h
    cases d2 with
    | nil => simp at hl
    | cons b t2 =>
      unfold bytesToHex byteToHex at h
      simp only [List.cons_append, List.nil_append, List.cons.injEq] at h
      obtain ⟨e1, e2, e3⟩ := h
      have d1e := hexDigit_injective _ _ e1
      have d2e := hexDigit_injective _ _ e2
      simp only [Fin.mk.injEq] at d1e d2e
      have hb := b.isLt
      have hab : a = b := by
        apply Fin.ext
        omega
      rw [hab]
      rw [ih t2 (by simpa using hl) e3]

theorem bytesToHex_take :
    ∀ (n : Nat) (d : List (Fin 256)),
      (bytesToHex d).take (2 * n) = bytesToHex (d.take n) := by
  intro n d
  induction d generalizing n with
  | nil => simp [bytesToHex]
  | cons b t ih =>
    cases n with
    | zero => simp [bytesToHex]
    | succ m =>
      unfold bytesToHex byteToHex
      simp only [List.cons_append, List.nil_append, List.take_succ_cons]
      have h2 : 2 * (m + 1) = (2 * m + 1) + 1 := by ring
      rw [h2]
      simp only [List.take_succ_cons]
      rw [ih m]

theorem bytesToHex_length :
    ∀ d : List (Fin 256), (bytesToHex d).length = 2 * d.length := by
  intro d
  induction d with
  | nil => rfl
  | cons b t ih =>
    unfold bytesToHex byteToHex
    simp only [List.cons_append, List.nil_append, List.length_cons, ih]
    ring

/-- C8 amended: the token produced by key issuance depends injectively on
exactly the first 24 bytes (192 bits) of the 32-byte random draw — two
draws produce the same token iff they agree on their first 24 bytes (the
`hex()[:48]` truncation discards the last 8 bytes) — and the stored record
keeps only the one-way digest and the masked prefix+suffix form, never the
plaintext. -/
theorem api_key_first24_injective_and_masked (hashFn : String → String)
    (d1 d2 : List (Fin 256)) (h1 : d1.length = 32) (h2 : d2.length = 32) :
    (generate_api_key d1 = generate_api_key d2 ↔ d1.take 24 = d2.take 24) ∧
    ∀ (uid : Int) (nm : String),
      (create_key hashFn d1 uid nm).1.key = maskKey (generate_api_key d1) ∧
      (create_key hashFn d1 uid nm).1.key_hash
          = hashFn (generate_api_key d1) ∧
      (create_key hashFn d1 uid nm).2 = generate_api_key d1 ∧
      (create_key hashFn d1 uid nm).1.key
        ≠ (create_key hashFn d1 uid nm).2 := by
  have hlp : (generate_api_key d1).toList.length = 52 := by
    show ("ahg_".toList ++ (bytesToHex d1).take 48).length = 52
    rw [List.length_append, List.length_take, bytesToHex_length, h1]
    rfl
  constructor
  · constructor
    · intro he
      have hd := congrArg String.data he
      have hc : ((bytesToHex d1).take 48) = ((bytesToHex d2).take 48) :=
        List.append_cancel_left hd
      rw [show (48 : Nat) = 2 * 24 from rfl, bytesToHex_take 24 d1,
        bytesToHex_take 24 d2] at hc
      refine bytesToHex_inj _ _ ?_ hc
      rw [List.length_take, List.length_take, h1, h2]
    · intro hts
      unfold generate_api_key
      rw [show (48 : Nat) = 2 * 24 from rfl, bytesToHex_take 24 d1,
        bytesToHex_take 24 d2, hts]
  · intro uid nm
    refine ⟨rfl, rfl, rfl, ?_⟩
    intro he
    have h3 := congrArg (fun s : String => s.toList.length) he
    dsimp only at h3
    have hm : ((create_key hashFn d1 uid nm).1.key).toList.length = 31 := by
      show (maskKey (generate_api_key d1)).toList.length = 31
      show ((generate_api_key d1).toList.take 20 ++ "...".toList
        ++ (generate_api_key d1).toList.drop
            ((generate_api_key d1).toList.length - 8)).length = 31
      rw [List.length_append, List.length_append, List.length_take,
        List.length_drop, hlp]
      rfl
    rw [hm] at h3
    have h4 : ((create_key hashFn d1 uid nm).2).toList.length = 52 := hlp
    rw [h4] at h3
    exact absurd h3 (by norm_num)

/-- Witness for C8 amended: draws differing in the first byte give
different tokens, and the stored masked form differs from the plaintext. -/
theorem api_key_first24_injective_and_masked_witness :
    generate_api_key drawA ≠ generate_api_key drawC ∧
    (create_key (fun s => s) drawA 1 "k").1.key
      ≠ (create_key (fun s => s) drawA 1 "k").2 := by
  have h := api_key_first24_injective_and_masked (fun s => s) drawA drawC
    (by decide) (by decide)
  constructor
  · intro he
    exact absurd (h.1.mp he) (by decide)
  · exact (h.2 1 "k").2.2.2

end APIHub
